import Mathlib

/-!
Shallow embedding of the compute-shader test harness in
`external/vulkancts/modules/vulkan/spirv_assembly/vktSpvAsmComputeShaderCase.cpp`.

Host-visible mapped memory is modelled as a total function from byte offset to
byte value.  The device and driver are opaque collaborators: device execution
is a parameter transforming the flushed input and cleared output memories into
the post-execution output memories, and fence signalling is a parameter giving
the time at which the completion fence is signalled (`none` = never).
-/

namespace SpvAsmCompute

/-- One buffer of a `ComputeShaderSpec`: raw bytes, as in `Buffer::data()`. -/
structure SpecBuffer where
  bytes : List Nat
deriving DecidableEq, Inhabited

/-- `Buffer::getNumBytes()`. -/
def SpecBuffer.getNumBytes (b : SpecBuffer) : Nat := b.bytes.length

/-- Read a byte at offset `i` from a byte list viewed as raw memory. -/
def byteAt (bs : List Nat) (i : Nat) : Nat := bs.getD i 0

/-- `tcu::IVec3`, three signed 32-bit components. -/
structure IVec3 where
  x : Int
  y : Int
  z : Int

/-- The C++ `int` to `uint32_t` conversion applied by `vkdi.cmdDispatch`. -/
def toUInt32 (v : Int) : Nat := (v % (2 ^ 32 : Nat)).toNat

/-- The declarative test specification (`ComputeShaderSpec`). -/
structure ComputeShaderSpec where
  assembly : String
  inputs : List SpecBuffer
  outputs : List SpecBuffer
  numWorkGroups : IVec3

/-- A host-visible memory allocation: requested size, suballocation offset
within its `VkDeviceMemory`, and the mapped bytes (`getHostPtr`). -/
structure Allocation where
  size : Nat
  offset : Nat
  mem : Nat → Nat

/-- The first `n` bytes of a mapped view. -/
def readBytes (mem : Nat → Nat) (n : Nat) : List Nat := (List.range n).map mem

/-- The range covered by one `flushMappedMemoryRange` call. -/
structure FlushRange where
  offset : Nat
  size : Nat
deriving DecidableEq

inductive BufferUsage
  | storageBuffer
deriving DecidableEq

inductive SharingMode
  | exclusive
deriving DecidableEq

/-- The fields of the `VkBufferCreateInfo` filled in `createBufferAndBindMemory`. -/
structure BufferCreateInfo where
  size : Nat
  usage : BufferUsage
  flags : Nat
  sharingMode : SharingMode

inductive MemoryRequirement
  | hostVisible
deriving DecidableEq

/-- Modelled from the spec: `Allocator::allocate` (`vkMemUtil`, repository code
outside the sources shown) returns a fresh host-visible allocation of the
requested size, bound at offset 0 within its memory object, with arbitrary
prior content of the mapped bytes (passed in as `prior`). -/
def allocatorAllocate (prior : Nat → Nat) (numBytes : Nat) : Allocation :=
  { size := numBytes, offset := 0, mem := prior }

/-- The result of `createBufferAndBindMemory`: the buffer creation parameters,
the memory requirement requested from the allocator, the allocation returned
through `outMemory`, and the offset passed to `bindBufferMemory`. -/
structure BufferBinding where
  createInfo : BufferCreateInfo
  memRequirement : MemoryRequirement
  alloc : Allocation
  bindOffset : Nat

/-- `createBufferAndBindMemory (vkdi, device, allocator, numBytes, outMemory)`:
builds a `VkBufferCreateInfo` of exactly `numBytes` with storage-buffer usage,
allocates with `MemoryRequirement::HostVisible`, and binds the buffer to the
allocation memory at the allocation offset. -/
def createBufferAndBindMemory (prior : Nat → Nat) (numBytes : Nat) : BufferBinding :=
  let bufferMemory := allocatorAllocate prior numBytes
  { createInfo := { size := numBytes, usage := .storageBuffer, flags := 0,
                    sharingMode := .exclusive }
  , memRequirement := .hostVisible
  , alloc := bufferMemory
  , bindOffset := bufferMemory.offset }

/-- `setMemory (vkdi, device, destAlloc, numBytes, data)`: `deMemcpy` of
`numBytes` bytes from `data` into the mapped view, then
`flushMappedMemoryRange (memory, offset, numBytes)`.  Returns the updated
allocation and the flushed range. -/
def setMemory (destAlloc : Allocation) (numBytes : Nat) (data : Nat → Nat) :
    Allocation × FlushRange :=
  ({ destAlloc with mem := fun i => if i < numBytes then data i else destAlloc.mem i },
   { offset := destAlloc.offset, size := numBytes })

/-- `clearMemory (vkdi, device, destAlloc, numBytes)`: `deMemset` of `numBytes`
zero bytes into the mapped view, then an identical flush. -/
def clearMemory (destAlloc : Allocation) (numBytes : Nat) : Allocation × FlushRange :=
  ({ destAlloc with mem := fun i => if i < numBytes then 0 else destAlloc.mem i },
   { offset := destAlloc.offset, size := numBytes })

/-- `deMemCmp (a, b, numBytes)` as used by `iterate`: `true` iff some byte among
the first `numBytes` differs (the C function returns nonzero exactly then). -/
def deMemCmp (a b : Nat → Nat) (numBytes : Nat) : Bool :=
  (List.range numBytes).any (fun i => a i != b i)

/-- `VkDescriptorInfo` restricted to the fields set by `createDescriptorInfo`:
the `bufferInfo` triple.  Buffer handles are identified by creation index. -/
structure DescriptorInfo where
  buffer : Nat
  offset : Nat
  range : Nat
deriving DecidableEq, Inhabited

/-- `createDescriptorInfo (buffer, offset, range)`. -/
def createDescriptorInfo (buffer offset range : Nat) : DescriptorInfo :=
  { buffer := buffer, offset := offset, range := range }

inductive DescriptorType
  | storageBuffer
deriving DecidableEq

/-- `createDescriptorSetLayout (vkdi, device, numBindings)`: one storage-buffer
binding per index `0 ≤ bindingNdx < numBindings`. -/
def createDescriptorSetLayout (numBindings : Nat) : List DescriptorType :=
  List.replicate numBindings .storageBuffer

/-- One `DescriptorSetUpdateBuilder::writeSingle` at `Location::binding b`. -/
structure DescriptorWrite where
  binding : Nat
  info : DescriptorInfo
deriving DecidableEq, Inhabited

/-- `createDescriptorSet (vkdi, device, pool, layout, numViews, descriptorInfos)`:
writes descriptor `descriptorNdx` at binding point `descriptorNdx` with
`descriptorInfos[descriptorNdx]`, for `0 ≤ descriptorNdx < numViews`. -/
def createDescriptorSet (numViews : Nat) (descriptorInfos : List DescriptorInfo) :
    List DescriptorWrite :=
  (List.range numViews).map
    (fun descriptorNdx => { binding := descriptorNdx
                          , info := descriptorInfos.getD descriptorNdx default })

inductive BindPoint
  | compute
deriving DecidableEq

/-- One recorded command. -/
inductive Cmd
  | bindPipeline : BindPoint → Nat → Cmd
  | bindDescriptorSets : BindPoint → Nat → Nat → Nat → List Nat → Cmd
  | dispatch : Nat → Nat → Nat → Cmd
deriving DecidableEq

/-- A command unit being recorded. -/
structure CmdBuffer where
  cmds : List Cmd
deriving DecidableEq

/-- `beginCommandBuffer`: a fresh, empty command unit. -/
def beginCommandBuffer : CmdBuffer := { cmds := [] }

def cmdBindPipeline (cb : CmdBuffer) (bindPoint : BindPoint) (pipeline : Nat) : CmdBuffer :=
  { cmds := cb.cmds ++ [.bindPipeline bindPoint pipeline] }

def cmdBindDescriptorSets (cb : CmdBuffer) (bindPoint : BindPoint)
    (layout firstSet setCount : Nat) (sets : List Nat) : CmdBuffer :=
  { cmds := cb.cmds ++ [.bindDescriptorSets bindPoint layout firstSet setCount sets] }

def cmdDispatch (cb : CmdBuffer) (x y z : Nat) : CmdBuffer :=
  { cmds := cb.cmds ++ [.dispatch x y z] }

/-- The recording block of `iterate` (lines 384-388): begin, bind the compute
pipeline, bind descriptor set 0, dispatch with the three work-group counts of
the specification, end. -/
def recordCommands (spec : ComputeShaderSpec)
    (computePipeline pipelineLayout descriptorSet : Nat) : CmdBuffer :=
  cmdDispatch
    (cmdBindDescriptorSets
      (cmdBindPipeline beginCommandBuffer .compute computePipeline)
      .compute pipelineLayout 0 1 [descriptorSet])
    (toUInt32 spec.numWorkGroups.x) (toUInt32 spec.numWorkGroups.y)
    (toUInt32 spec.numWorkGroups.z)

/-- `infiniteTimeout = ~(deUint64)0u` (line 399). -/
def infiniteTimeout : Nat := 2 ^ 64 - 1

inductive WaitOutcome
  | completed
  | timedOut
  | blocks
deriving DecidableEq

/-- Modelled from the spec: `vkdi.waitForFences` is a driver call (outside the
sources shown).  Per the specification, the host blocks until the completion
signal is raised, up to `timeout` nanoseconds; the all-ones timeout value is an
unbounded wait, so a never-signalled fence then blocks the caller forever
instead of timing out.  `signalTime` is the 64-bit timestamp at which the
fence is signalled, or `none` if it never is. -/
def waitForFences (signalTime : Option Nat) (timeout : Nat) : WaitOutcome :=
  match signalTime with
  | some s => if s ≤ timeout then .completed else .timedOut
  | none => if timeout = infiniteTimeout then .blocks else .timedOut

inductive TestResultCode
  | pass
  | fail
deriving DecidableEq

/-- `tcu::TestStatus`. -/
structure TestStatus where
  code : TestResultCode
  description : String
deriving DecidableEq

/-- `tcu::TestStatus::pass`. -/
def TestStatus.pass (description : String) : TestStatus :=
  { code := .pass, description := description }

/-- `tcu::TestStatus::fail`. -/
def TestStatus.fail (description : String) : TestStatus :=
  { code := .fail, description := description }

/-- Map over a list together with a running index, as the indexed `for` loops
of `iterate` do. -/
def mapWithIndex (f : Nat → α → β) : Nat → List α → List β
  | _, [] => []
  | k, a :: as => f k a :: mapWithIndex f (k + 1) as

/-- The device as an opaque collaborator: given the recorded commands, the
flushed input memories and the cleared output memories, execution yields the
post-execution output memories.  The device writes the output buffers in
place, so their number is unchanged. -/
structure Device where
  exec : List Cmd → List (Nat → Nat) → List (Nat → Nat) → List (Nat → Nat)
  exec_length : ∀ cs ins outs, (exec cs ins outs).length = outs.length

/-- The input setup loop of `iterate` (lines 317-328): for the `inputNdx`-th
input, create and bind a buffer of `getNumBytes` bytes and `setMemory` the
input data into it.  `prior k` is the arbitrary prior content of the mapped
memory of the `k`-th allocation made by `iterate`. -/
def inputAllocsOf (spec : ComputeShaderSpec) (prior : Nat → Nat → Nat) : List Allocation :=
  mapWithIndex
    (fun inputNdx input =>
      (setMemory (createBufferAndBindMemory (prior inputNdx) input.getNumBytes).alloc
        input.getNumBytes (byteAt input.bytes)).1)
    0 spec.inputs

/-- The output setup loop of `iterate` (lines 330-341): for the `outputNdx`-th
output, create and bind a buffer of `getNumBytes` bytes and `clearMemory` it.
Output allocations are created after the inputs, hence the index shift. -/
def outputAllocsOf (spec : ComputeShaderSpec) (prior : Nat → Nat → Nat) : List Allocation :=
  mapWithIndex
    (fun outputNdx output =>
      (clearMemory
        (createBufferAndBindMemory (prior (spec.inputs.length + outputNdx))
          output.getNumBytes).alloc
        output.getNumBytes).1)
    0 spec.outputs

/-- The `descriptorInfos` vector built by the two setup loops of `iterate`:
one `createDescriptorInfo (buffer, 0, numBytes)` per input in order, then one
per output in order.  Buffer handles are numbered by creation order, inputs
first. -/
def descriptorInfosOf (spec : ComputeShaderSpec) : List DescriptorInfo :=
  mapWithIndex
    (fun inputNdx input => createDescriptorInfo inputNdx 0 input.getNumBytes)
    0 spec.inputs ++
  mapWithIndex
    (fun outputNdx output =>
      createDescriptorInfo (spec.inputs.length + outputNdx) 0 output.getNumBytes)
    0 spec.outputs

/-- The verification loop of `iterate` (lines 406-413) over the pairs of
expected output buffer and corresponding post-execution mapped memory: the
first mismatching pair returns the failure status, otherwise the pass status
is returned after the loop. -/
def checkOutputs : List (SpecBuffer × (Nat → Nat)) → TestStatus
  | [] => TestStatus.pass "Ouput match with expected"
  | (expectedOutput, outputMem) :: rest =>
    if deMemCmp (byteAt expectedOutput.bytes) outputMem expectedOutput.getNumBytes
    then TestStatus.fail "Output doesn't match with expected"
    else checkOutputs rest

/-- The post-execution output memories: the device executes the recorded
commands against the flushed inputs and the cleared outputs. -/
def finalOutputMemsOf (spec : ComputeShaderSpec) (dev : Device)
    (prior : Nat → Nat → Nat) : List (Nat → Nat) :=
  dev.exec (recordCommands spec 0 0 0).cmds
    ((inputAllocsOf spec prior).map Allocation.mem)
    ((outputAllocsOf spec prior).map Allocation.mem)

/-- Outcome of one `iterate` call.  `assertFail` is the `DE_ASSERT` on empty
outputs tripping; `fatal` is a `VK_CHECK` failure (in particular a timed-out
fence wait); `neverReturns` is the host blocking forever on the fence. -/
inductive IterateResult
  | status : TestStatus → IterateResult
  | assertFail
  | fatal
  | neverReturns
deriving DecidableEq

/-- `SpvAsmComputeShaderInstance::iterate`.  The `DE_ASSERT` rejects empty
outputs (modelled from the spec: `DE_ASSERT` is repository code outside the
sources shown; the specification calls an empty-output specification invalid
and rejected).  Then buffers are set up, commands recorded and submitted, the
host waits on the completion fence with `infiniteTimeout`, and the outputs
are verified. -/
def iterate (spec : ComputeShaderSpec) (dev : Device) (prior : Nat → Nat → Nat)
    (fenceSignalTime : Option Nat) : IterateResult :=
  if spec.outputs.isEmpty then .assertFail
  else
    match waitForFences fenceSignalTime infiniteTimeout with
    | .blocks => .neverReturns
    | .timedOut => .fatal
    | .completed =>
      .status (checkOutputs (spec.outputs.zip (finalOutputMemsOf spec dev prior)))

/-- Whether one expected-output/post-execution-memory pair passes the
`deMemCmp` check of the verification loop. -/
def outputMatches (p : SpecBuffer × (Nat → Nat)) : Prop :=
  deMemCmp (byteAt p.1.bytes) p.2 p.1.getNumBytes = false

instance (p : SpecBuffer × (Nat → Nat)) : Decidable (outputMatches p) := by
  unfold outputMatches; infer_instance

/-- A device that leaves the output memories exactly as set up. -/
def idDevice : Device :=
  { exec := fun _ _ outs => outs, exec_length := fun _ _ _ => rfl }

/-- A concrete one-output specification used as evaluation witness input. -/
def specOneOutput : ComputeShaderSpec :=
  { assembly := "", inputs := [], outputs := [{ bytes := [0, 0] }]
  , numWorkGroups := { x := 1, y := 1, z := 1 } }

/-- A concrete specification with no outputs, as evaluation witness input. -/
def specNoOutput : ComputeShaderSpec :=
  { assembly := "", inputs := [{ bytes := [1] }], outputs := []
  , numWorkGroups := { x := 1, y := 1, z := 1 } }

/-! Helper lemmas. -/

theorem mapWithIndex_length (f : Nat → α → β) (k : Nat) (l : List α) :
    (mapWithIndex f k l).length = l.length := by
  induction l generalizing k with
  | nil => rfl
  | cons a as ih => simp [mapWithIndex, ih]

theorem mapWithIndex_getD (f : Nat → α → β) (k i : Nat) (l : List α) (d : α) (e : β)
    (h : i < l.length) :
    (mapWithIndex f k l).getD i e = f (k + i) (l.getD i d) := by
  induction l generalizing k i with
  | nil => simp at h
  | cons a as ih =>
    cases i with
    | zero => simp [mapWithIndex]
    | succ j =>
      have hj : j < as.length := by simpa using h
      have hstep : k + 1 + j = k + (j + 1) := by omega
      simp only [mapWithIndex, List.getD_cons_succ]
      rw [ih (k + 1) j hj, hstep]

theorem readBytes_length (m : Nat → Nat) (n : Nat) : (readBytes m n).length = n := by
  simp [readBytes]

theorem readBytes_getD (m : Nat → Nat) (n i : Nat) (h : i < n) :
    (readBytes m n).getD i 0 = m i := by
  have h1 : i < ((List.range n).map m).length := by simpa using h
  rw [readBytes, List.getD_eq_getElem _ _ h1]
  simp

theorem readBytes_getElem (m : Nat → Nat) (n i : Nat) (h : i < (readBytes m n).length) :
    (readBytes m n)[i] = m i := by
  simp [readBytes]

theorem readBytes_eq_iff (m : Nat → Nat) (n : Nat) (bs : List Nat) :
    readBytes m n = bs ↔ bs.length = n ∧ ∀ i < n, m i = byteAt bs i := by
  constructor
  · rintro rfl
    refine ⟨readBytes_length m n, fun i hi => ?_⟩
    rw [byteAt, readBytes_getD m n i hi]
  · rintro ⟨hlen, hpt⟩
    apply List.ext_getElem (by rw [readBytes_length, hlen])
    intro i h1 h2
    have hi : i < n := by rwa [readBytes_length] at h1
    rw [readBytes_getElem m n i h1, hpt i hi, byteAt, List.getD_eq_getElem bs 0 h2]

theorem deMemCmp_eq_false_iff (a b : Nat → Nat) (n : Nat) :
    deMemCmp a b n = false ↔ ∀ i < n, a i = b i := by
  simp [deMemCmp, List.any_eq_false]

theorem outputMatches_iff (e : SpecBuffer) (m : Nat → Nat) :
    outputMatches (e, m) ↔ readBytes m e.getNumBytes = e.bytes := by
  rw [outputMatches, deMemCmp_eq_false_iff, readBytes_eq_iff]
  constructor
  · intro h
    exact ⟨rfl, fun i hi => (h i hi).symm⟩
  · rintro ⟨-, h⟩
    exact fun i hi => (h i hi).symm

theorem fail_ne_pass (s t : String) : TestStatus.fail s ≠ TestStatus.pass t := by
  simp [TestStatus.fail, TestStatus.pass]

theorem checkOutputs_eq_pass_iff (l : List (SpecBuffer × (Nat → Nat))) :
    checkOutputs l = TestStatus.pass "Ouput match with expected" ↔
      ∀ p ∈ l, outputMatches p := by
  induction l with
  | nil => simp [checkOutputs]
  | cons p rest ih =>
    obtain ⟨e, m⟩ := p
    cases hcmp : deMemCmp (byteAt e.bytes) m e.getNumBytes with
    | true =>
      simp only [checkOutputs, hcmp, if_pos]
      constructor
      · intro habs
        exact absurd habs (fail_ne_pass _ _)
      · intro hall
        have hmatch := hall (e, m) (List.mem_cons_self _ _)
        rw [outputMatches] at hmatch
        rw [hmatch] at hcmp
        cases hcmp
    | false =>
      simp only [checkOutputs, hcmp]
      rw [if_neg (by simp), ih]
      constructor
      · intro hall p hp
        rcases List.mem_cons.mp hp with hp | hp
        · rw [hp, outputMatches]
          exact hcmp
        · exact hall p hp
      · intro hall p hp
        exact hall p (List.mem_cons_of_mem _ hp)

theorem checkOutputs_pass_or_fail (l : List (SpecBuffer × (Nat → Nat))) :
    checkOutputs l = TestStatus.pass "Ouput match with expected" ∨
    checkOutputs l = TestStatus.fail "Output doesn't match with expected" := by
  induction l with
  | nil => exact Or.inl rfl
  | cons p rest ih =>
    obtain ⟨e, m⟩ := p
    cases hcmp : deMemCmp (byteAt e.bytes) m e.getNumBytes with
    | true =>
      right
      simp [checkOutputs, hcmp]
    | false =>
      simpa [checkOutputs, hcmp] using ih

theorem checkOutputs_append_of_matches (l1 l2 : List (SpecBuffer × (Nat → Nat)))
    (h : ∀ p ∈ l1, outputMatches p) :
    checkOutputs (l1 ++ l2) = checkOutputs l2 := by
  induction l1 with
  | nil => rfl
  | cons p rest ih =>
    obtain ⟨e, m⟩ := p
    have hm : outputMatches (e, m) := h _ (List.mem_cons_self _ _)
    rw [outputMatches] at hm
    simp only [List.cons_append, checkOutputs, hm]
    rw [if_neg (by simp)]
    exact ih (fun q hq => h q (List.mem_cons_of_mem _ hq))

theorem checkOutputs_cons_of_mismatch (e : SpecBuffer) (m : Nat → Nat)
    (rest : List (SpecBuffer × (Nat → Nat)))
    (h : deMemCmp (byteAt e.bytes) m e.getNumBytes = true) :
    checkOutputs ((e, m) :: rest) = TestStatus.fail "Output doesn't match with expected" := by
  simp [checkOutputs, h]

theorem forall_zip_iff (es : List SpecBuffer) (ms : List (Nat → Nat))
    (h : ms.length = es.length) :
    (∀ p ∈ es.zip ms, outputMatches p) ↔
      ∀ j < es.length, outputMatches (es.getD j default, ms.getD j (fun _ => 0)) := by
  induction es generalizing ms with
  | nil => simp
  | cons e es ih =>
    cases ms with
    | nil => simp at h
    | cons m ms =>
      have hlen : ms.length = es.length := by simpa using h
      constructor
      · intro hall j hj
        cases j with
        | zero => simpa using hall (e, m) (by simp)
        | succ i =>
          have hi : i < es.length := by simpa using hj
          simpa using (ih ms hlen).mp
            (fun p hp => hall p (by simp [hp])) i hi
      · intro hall p hp
        rw [List.zip_cons_cons] at hp
        rcases List.mem_cons.mp hp with hp | hp
        · rw [hp]
          simpa using hall 0 (by simp)
        · refine (ih ms hlen).mpr ?_ p hp
          intro i hi
          simpa using hall (i + 1) (by simp only [List.length_cons]; omega)

theorem finalOutputMemsOf_length (spec : ComputeShaderSpec) (dev : Device)
    (prior : Nat → Nat → Nat) :
    (finalOutputMemsOf spec dev prior).length = spec.outputs.length := by
  rw [finalOutputMemsOf, dev.exec_length, List.length_map, outputAllocsOf,
    mapWithIndex_length]

theorem descriptorInfosOf_getD (spec : ComputeShaderSpec) (i : Nat)
    (hi : i < spec.inputs.length + spec.outputs.length) :
    (descriptorInfosOf spec).getD i default =
      createDescriptorInfo i 0 (((spec.inputs ++ spec.outputs).getD i default).getNumBytes) := by
  rw [descriptorInfosOf]
  by_cases hin : i < spec.inputs.length
  · rw [List.getD_append _ _ _ i (by rw [mapWithIndex_length]; exact hin)]
    rw [mapWithIndex_getD _ 0 i _ default _ hin]
    rw [List.getD_append _ _ _ i hin]
    simp [createDescriptorInfo]
  · push_neg at hin
    rw [List.getD_append_right _ _ _ i (by rw [mapWithIndex_length]; exact hin)]
    rw [mapWithIndex_length]
    have hout : i - spec.inputs.length < spec.outputs.length := by omega
    rw [mapWithIndex_getD _ 0 (i - spec.inputs.length) _ default _ hout]
    rw [List.getD_append_right _ _ _ i hin]
    simp only [createDescriptorInfo, Nat.zero_add]
    rw [show spec.inputs.length + (i - spec.inputs.length) = i from by omega]

/-! Claim theorems. -/

/-- C2: binding slot assignment is positional and order-preserving: the
descriptor set layout for the iteration has `inputs.length + outputs.length`
bindings, and the descriptor written at binding slot `i` is exactly the
descriptor of the `i`-th buffer (creation index `i`, buffer offset 0, range
equal to that buffer's byte count) in the concatenated inputs-then-outputs
declaration sequence. -/
theorem C2_positional_bindings (spec : ComputeShaderSpec) :
    (createDescriptorSetLayout (spec.inputs.length + spec.outputs.length)).length =
      spec.inputs.length + spec.outputs.length ∧
    ∀ i < spec.inputs.length + spec.outputs.length,
      (createDescriptorSet (spec.inputs.length + spec.outputs.length)
          (descriptorInfosOf spec)).getD i default =
        { binding := i
        , info := { buffer := i, offset := 0
                  , range := ((spec.inputs ++ spec.outputs).getD i default).getNumBytes } } := by
  refine ⟨by simp [createDescriptorSetLayout], fun i hi => ?_⟩
  simp only [createDescriptorSet]
  rw [List.getD_eq_getElem _ _ (by simpa using hi), List.getElem_map]
  simp only [List.getElem_range]
  rw [descriptorInfosOf_getD spec i hi]
  rfl

/-- Witness for C2 at a concrete two-buffer specification. -/
theorem C2_witness :
    (createDescriptorSetLayout
        (specNoOutput.inputs.length + specNoOutput.outputs.length)).length =
      specNoOutput.inputs.length + specNoOutput.outputs.length ∧
    (createDescriptorSet (specNoOutput.inputs.length + specNoOutput.outputs.length)
        (descriptorInfosOf specNoOutput)).getD 0 default =
      { binding := 0
      , info := { buffer := 0, offset := 0
                , range := ((specNoOutput.inputs ++ specNoOutput.outputs).getD 0
                    default).getNumBytes } } :=
  ⟨(C2_positional_bindings specNoOutput).1,
   (C2_positional_bindings specNoOutput).2 0 (by decide)⟩

/-- C4: for any size `S` and any prior content of the backing memory, the
output setup phase (allocate, then `clearMemory`) leaves exactly `S` zero
bytes in the host-visible view, and the flush covers exactly those `S` bytes
starting at the allocation offset. -/
theorem C4_output_setup_zeroes (prior : Nat → Nat) (S : Nat) :
    readBytes ((clearMemory (createBufferAndBindMemory prior S).alloc S).1.mem) S =
      List.replicate S 0 ∧
    (clearMemory (createBufferAndBindMemory prior S).alloc S).2 =
      { offset := (createBufferAndBindMemory prior S).alloc.offset, size := S } := by
  refine ⟨?_, rfl⟩
  rw [readBytes_eq_iff]
  refine ⟨by simp, fun i hi => ?_⟩
  have hb : byteAt (List.replicate S 0) i = 0 := by
    rw [byteAt, List.getD_eq_getElem _ 0 (by simpa using hi)]
    exact List.getElem_replicate 0 _
  rw [hb]
  simp [clearMemory, hi]

/-- C5: writing a byte sequence `B` (of length at most the allocated size)
into an input buffer with `setMemory` and reading the same range back through
the host-visible view yields exactly `B`. -/
theorem C5_write_read_roundTrip (prior : Nat → Nat) (S : Nat) (B : List Nat)
    (h : B.length ≤ S) :
    readBytes ((setMemory (createBufferAndBindMemory prior S).alloc B.length
        (byteAt B)).1.mem) B.length = B := by
  rw [readBytes_eq_iff]
  exact ⟨rfl, fun i hi => by simp [setMemory, hi]⟩

/-- Witness for C5 with `B = [1, 2, 3]` in a 4-byte allocation. -/
theorem C5_witness :
    readBytes ((setMemory (createBufferAndBindMemory (fun _ => 7) 4).alloc
        (List.length [1, 2, 3]) (byteAt [1, 2, 3])).1.mem)
      (List.length [1, 2, 3]) = [1, 2, 3] :=
  C5_write_read_roundTrip (fun _ => 7) 4 [1, 2, 3] (by decide)

/-- C6: `createBufferAndBindMemory` requests a buffer of exactly the given
size with storage-buffer usage, allocates it from host-visible memory of that
same size, and binds the buffer to its memory at offset 0. -/
theorem C6_createBufferAndBindMemory_contract (prior : Nat → Nat) (numBytes : Nat) :
    (createBufferAndBindMemory prior numBytes).createInfo.size = numBytes ∧
    (createBufferAndBindMemory prior numBytes).createInfo.usage = .storageBuffer ∧
    (createBufferAndBindMemory prior numBytes).memRequirement = .hostVisible ∧
    (createBufferAndBindMemory prior numBytes).alloc.size = numBytes ∧
    (createBufferAndBindMemory prior numBytes).bindOffset = 0 :=
  ⟨rfl, rfl, rfl, rfl, rfl⟩

/-- C10: `setMemory` and `clearMemory` modify exactly the first `numBytes`
bytes of the mapped host view: every byte at offset at or beyond `numBytes`
is left unchanged by both. -/
theorem C10_write_zero_frame (destAlloc : Allocation) (numBytes : Nat)
    (data : Nat → Nat) (i : Nat) (h : numBytes ≤ i) :
    (setMemory destAlloc numBytes data).1.mem i = destAlloc.mem i ∧
    (clearMemory destAlloc numBytes).1.mem i = destAlloc.mem i := by
  constructor <;> simp [setMemory, clearMemory, Nat.not_lt.mpr h]

/-- Witness for C10 at a concrete allocation, write and offset. -/
theorem C10_witness :
    (setMemory (Allocation.mk 4 0 (fun _ => 9)) 2 (fun _ => 5)).1.mem 3 =
      (Allocation.mk 4 0 (fun _ => 9)).mem 3 ∧
    (clearMemory (Allocation.mk 4 0 (fun _ => 9)) 2).1.mem 3 =
      (Allocation.mk 4 0 (fun _ => 9)).mem 3 :=
  C10_write_zero_frame (Allocation.mk 4 0 (fun _ => 9)) 2 (fun _ => 5) 3 (by decide)

theorem toUInt32_eq_toNat (v : Int) (h0 : 0 ≤ v) (h2 : v < 2 ^ 32) :
    toUInt32 v = v.toNat := by
  rw [toUInt32, Int.emod_eq_of_lt h0 (by exact_mod_cast h2)]

theorem isEmpty_eq_false_of_ne_nil {α : Type _} {l : List α} (h : l ≠ []) :
    l.isEmpty = false := by
  cases l with
  | nil => exact absurd rfl h
  | cons a as => rfl

/-- C7: the recorded command unit contains exactly three commands in order:
a compute-pipeline bind, a descriptor-set bind at set index 0 (one set), and
a single dispatch whose three work-group counts are the components of the
specification's `numWorkGroups`, taken verbatim (the counts being in the
non-negative 32-bit range). -/
theorem C7_recorded_commands (spec : ComputeShaderSpec)
    (computePipeline pipelineLayout descriptorSet : Nat)
    (hx : 0 ≤ spec.numWorkGroups.x) (hx2 : spec.numWorkGroups.x < 2 ^ 32)
    (hy : 0 ≤ spec.numWorkGroups.y) (hy2 : spec.numWorkGroups.y < 2 ^ 32)
    (hz : 0 ≤ spec.numWorkGroups.z) (hz2 : spec.numWorkGroups.z < 2 ^ 32) :
    (recordCommands spec computePipeline pipelineLayout descriptorSet).cmds =
      [Cmd.bindPipeline .compute computePipeline,
       Cmd.bindDescriptorSets .compute pipelineLayout 0 1 [descriptorSet],
       Cmd.dispatch spec.numWorkGroups.x.toNat spec.numWorkGroups.y.toNat
         spec.numWorkGroups.z.toNat] := by
  simp [recordCommands, cmdDispatch, cmdBindDescriptorSets, cmdBindPipeline,
    beginCommandBuffer, toUInt32_eq_toNat _ hx hx2, toUInt32_eq_toNat _ hy hy2,
    toUInt32_eq_toNat _ hz hz2]

/-- Witness for C7 at a concrete specification and concrete handles. -/
theorem C7_witness :
    (recordCommands specOneOutput 5 6 7).cmds =
      [Cmd.bindPipeline .compute 5, Cmd.bindDescriptorSets .compute 6 0 1 [7],
       Cmd.dispatch ((1 : Int).toNat) ((1 : Int).toNat) ((1 : Int).toNat)] :=
  C7_recorded_commands specOneOutput 5 6 7 (by decide) (by decide) (by decide)
    (by decide) (by decide) (by decide)

/-- C8: the fence wait uses the all-ones 64-bit timeout, so the wait never
times out: `iterate` never fails through a timed-out wait, and with a fence
that is never signalled it blocks forever instead of returning. -/
theorem C8_infinite_wait_never_times_out (spec : ComputeShaderSpec) (dev : Device)
    (prior : Nat → Nat → Nat) (t : Option Nat)
    (hbound : ∀ s, t = some s → s < 2 ^ 64) :
    infiniteTimeout = 2 ^ 64 - 1 ∧
    waitForFences t infiniteTimeout ≠ .timedOut ∧
    iterate spec dev prior t ≠ .fatal ∧
    (t = none → spec.outputs ≠ [] → iterate spec dev prior t = .neverReturns) := by
  have hwait : waitForFences t infiniteTimeout ≠ .timedOut := by
    cases t with
    | none => simp [waitForFences]
    | some s =>
      have hs := hbound s rfl
      have hle : s ≤ infiniteTimeout := by rw [infiniteTimeout]; omega
      simp [waitForFences, hle]
  refine ⟨rfl, hwait, ?_, ?_⟩
  · simp only [iterate]
    by_cases hemp : spec.outputs.isEmpty = true
    · simp [hemp]
    · rw [if_neg hemp]
      cases hw : waitForFences t infiniteTimeout with
      | completed => simp
      | timedOut => exact absurd hw hwait
      | blocks => simp
  · intro hnone hne
    subst hnone
    simp only [iterate]
    rw [if_neg (by simp [isEmpty_eq_false_of_ne_nil hne])]
    have hblocks : waitForFences none infiniteTimeout = .blocks := by
      simp [waitForFences]
    rw [hblocks]

/-- Witness for C8: with a never-signalled fence and a non-empty output list,
the iteration blocks forever. -/
theorem C8_witness :
    iterate specOneOutput idDevice (fun _ _ => 0) none = .neverReturns :=
  (C8_infinite_wait_never_times_out specOneOutput idDevice (fun _ _ => 0) none
    (fun s h => Option.noConfusion h)).2.2.2 rfl (by decide)

/-- C3: an empty outputs sequence is rejected by the assertion at the start of
`iterate` before any buffer is created, so no verdict (in particular no
vacuous Pass) is produced for it; conversely, every execution that reaches
the verification step and returns a status has a non-empty outputs
sequence. -/
theorem C3_empty_outputs_rejected (spec : ComputeShaderSpec) (dev : Device)
    (prior : Nat → Nat → Nat) (t : Option Nat) :
    (spec.outputs = [] → iterate spec dev prior t = .assertFail) ∧
    (∀ st, iterate spec dev prior t = .status st → spec.outputs ≠ []) := by
  constructor
  · intro h
    simp [iterate, h]
  · intro st h hempty
    simp [iterate, hempty] at h

/-- Witness for C3 at a concrete specification with no outputs. -/
theorem C3_witness :
    iterate specNoOutput idDevice (fun _ _ => 0) (some 0) = .assertFail :=
  (C3_empty_outputs_rejected specNoOutput idDevice (fun _ _ => 0) (some 0)).1 rfl

/-- C9: verification short-circuits in declaration order: with every earlier
output matching and output `e` mismatching, the verdict is the fixed failure
status, and it does not depend on any output pair after the first mismatch. -/
theorem C9_verification_short_circuit (l1 l2 l2' : List (SpecBuffer × (Nat → Nat)))
    (e : SpecBuffer) (m : Nat → Nat)
    (h1 : ∀ p ∈ l1, outputMatches p)
    (hm : ¬ outputMatches (e, m)) :
    checkOutputs (l1 ++ (e, m) :: l2) =
      TestStatus.fail "Output doesn't match with expected" ∧
    checkOutputs (l1 ++ (e, m) :: l2) = checkOutputs (l1 ++ (e, m) :: l2') := by
  have hcmp : deMemCmp (byteAt e.bytes) m e.getNumBytes = true := by
    cases hval : deMemCmp (byteAt e.bytes) m e.getNumBytes with
    | true => rfl
    | false => exact absurd hval hm
  have e1 := checkOutputs_append_of_matches l1 ((e, m) :: l2) h1
  have e2 := checkOutputs_append_of_matches l1 ((e, m) :: l2') h1
  have e3 := checkOutputs_cons_of_mismatch e m l2 hcmp
  have e4 := checkOutputs_cons_of_mismatch e m l2' hcmp
  constructor
  · rw [e1, e3]
  · rw [e1, e2, e3, e4]

/-- Witness for C9: one matching pair, then a mismatching pair; the later
pair of the longer list does not change the verdict. -/
theorem C9_witness :
    checkOutputs (([((⟨[0]⟩ : SpecBuffer), fun _ => 0)] : List (SpecBuffer × (Nat → Nat))) ++
        ((⟨[1]⟩ : SpecBuffer), fun _ => 0) :: []) =
      TestStatus.fail "Output doesn't match with expected" ∧
    checkOutputs (([((⟨[0]⟩ : SpecBuffer), fun _ => 0)] : List (SpecBuffer × (Nat → Nat))) ++
        ((⟨[1]⟩ : SpecBuffer), fun _ => 0) :: []) =
      checkOutputs (([((⟨[0]⟩ : SpecBuffer), fun _ => 0)] : List (SpecBuffer × (Nat → Nat))) ++
        ((⟨[1]⟩ : SpecBuffer), fun _ => 0) :: [((⟨[5]⟩ : SpecBuffer), fun _ => 9)]) :=
  C9_verification_short_circuit [((⟨[0]⟩ : SpecBuffer), fun _ => 0)]
    [] [((⟨[5]⟩ : SpecBuffer), fun _ => 9)] ⟨[1]⟩ (fun _ => 0) (by decide) (by decide)

/-- C1: for a specification with at least one output buffer and a completed
execution, `iterate` returns the Pass verdict iff, for every declared output
buffer, the post-execution bytes of its host-visible view over the expected
length equal the expected bytes; and any mismatch yields the Fail verdict. -/
theorem C1_iterate_pass_iff (spec : ComputeShaderSpec) (dev : Device)
    (prior : Nat → Nat → Nat) (s : Nat)
    (hout : spec.outputs ≠ []) (hs : s < 2 ^ 64) :
    (iterate spec dev prior (some s) =
        .status (TestStatus.pass "Ouput match with expected") ↔
      ∀ j < spec.outputs.length,
        readBytes ((finalOutputMemsOf spec dev prior).getD j (fun _ => 0))
            ((spec.outputs.getD j default).getNumBytes) =
          (spec.outputs.getD j default).bytes) ∧
    ((¬ ∀ j < spec.outputs.length,
        readBytes ((finalOutputMemsOf spec dev prior).getD j (fun _ => 0))
            ((spec.outputs.getD j default).getNumBytes) =
          (spec.outputs.getD j default).bytes) →
      iterate spec dev prior (some s) =
        .status (TestStatus.fail "Output doesn't match with expected")) := by
  have hle : s ≤ infiniteTimeout := by rw [infiniteTimeout]; omega
  have hwait : waitForFences (some s) infiniteTimeout = .completed := by
    simp [waitForFences, hle]
  have hiter : iterate spec dev prior (some s) =
      .status (checkOutputs (spec.outputs.zip (finalOutputMemsOf spec dev prior))) := by
    simp only [iterate]
    rw [if_neg (by simp [isEmpty_eq_false_of_ne_nil hout]), hwait]
  have hmemlen : (finalOutputMemsOf spec dev prior).length = spec.outputs.length :=
    finalOutputMemsOf_length spec dev prior
  have hiff : checkOutputs (spec.outputs.zip (finalOutputMemsOf spec dev prior)) =
      TestStatus.pass "Ouput match with expected" ↔
      ∀ j < spec.outputs.length,
        readBytes ((finalOutputMemsOf spec dev prior).getD j (fun _ => 0))
            ((spec.outputs.getD j default).getNumBytes) =
          (spec.outputs.getD j default).bytes := by
    rw [checkOutputs_eq_pass_iff, forall_zip_iff _ _ hmemlen]
    exact forall_congr' fun j => imp_congr_right fun _ => outputMatches_iff _ _
  constructor
  · rw [hiter]
    constructor
    · intro h
      have hc : checkOutputs (spec.outputs.zip (finalOutputMemsOf spec dev prior)) =
          TestStatus.pass "Ouput match with expected" := by
        injection h
      exact hiff.mp hc
    · intro h
      rw [hiff.mpr h]
  · intro hnot
    rw [hiter]
    rcases checkOutputs_pass_or_fail
        (spec.outputs.zip (finalOutputMemsOf spec dev prior)) with hp | hf
    · exact absurd (hiff.mp hp) hnot
    · rw [hf]

/-- Witness for C1: a one-output specification whose expected bytes are the
zeros left by setup, under a device that writes nothing, passes. -/
theorem C1_witness :
    iterate specOneOutput idDevice (fun _ _ => 37) (some 5) =
      .status (TestStatus.pass "Ouput match with expected") :=
  (C1_iterate_pass_iff specOneOutput idDevice (fun _ _ => 37) 5 (by decide)
    (by norm_num)).1.mpr (by decide)

end SpvAsmCompute
